import Mathlib

set_option linter.unusedVariables false

/-!
# Verification of the stabilometric feature-extraction pipeline

Shallow embedding of `vaila/stabilogram_analysis.py` (version 1.3).

Conventions of the embedding:
* a NumPy 1-D array of floats becomes a `List ℚ` (or `List ℝ` where the
  source takes square roots);
* Python `raise` becomes the `Except.error` branch of an `Except` result;
  functions whose bodies cannot raise still return `Except` so that
  failure claims about them are statable — their translation only ever
  produces `Except.ok`;
* NumPy's NaN (produced by `np.mean` on an empty array) is modelled as
  `none` inside an `Option` payload;
* Python integer truncation `int(x)`, slicing `s[k:]` / `s[:k]` (with
  negative indices) and NumPy broadcasting of 1-D shapes are modelled by
  the dedicated helpers below.
-/

/-- The error kinds raised by the analyzers: `invalidParameter` is the
`ValueError("delta_t is too large for the signal length.")` of
`compute_msd`; `broadcastError` is NumPy's shape-mismatch `ValueError`;
`zeroDivision` is Python's `ZeroDivisionError` from `1 / fs`;
`polyorderTooLarge` and `windowTooLarge` are the two `ValueError`s of
`scipy.signal.savgol_filter`. -/
inductive AnalysisError where
  | invalidParameter
  | broadcastError
  | zeroDivision
  | polyorderTooLarge
  | windowTooLarge
deriving DecidableEq, Repr

/-- Python `int(x)`: truncation toward zero. -/
def pyInt (q : ℚ) : ℤ :=
  if 0 ≤ q then ⌊q⌋ else ⌈q⌉

/-- Python slice `s[k:]`, `k` possibly negative. -/
def pySliceFrom (s : List ℚ) (k : ℤ) : List ℚ :=
  if 0 ≤ k then s.drop k.toNat else s.drop ((s.length : ℤ) + k).toNat

/-- Python slice `s[:k]`, `k` possibly negative (so `s[:-n]` is
`pySliceTo s (-n)`; note `s[:-0] = s[:0] = []`). -/
def pySliceTo (s : List ℚ) (k : ℤ) : List ℚ :=
  if 0 ≤ k then s.take k.toNat else s.take ((s.length : ℤ) + k).toNat

/-- NumPy elementwise subtraction of two 1-D arrays, with broadcasting:
equal lengths subtract pointwise, a length-1 operand is stretched (a
length-0 other side yields an empty result), anything else is a
shape-mismatch error (`none`). -/
def npSub (a b : List ℚ) : Option (List ℚ) :=
  if a.length = b.length then some (List.zipWith (fun x y => x - y) a b)
  else if a.length = 1 then some (b.map (fun y => a.headD 0 - y))
  else if b.length = 1 then some (a.map (fun x => x - b.headD 0))
  else none

/-- `np.mean` of a 1-D array; `none` models the NaN (plus RuntimeWarning)
that NumPy produces on an empty array. -/
def npMean (l : List ℚ) : Option ℚ :=
  if l.length = 0 then none else some (l.sum / l.length)

/-- `compute_msd(S_n, fs, delta_t)` (stabilogram_analysis.py:133-155):
`delta_n = int(delta_t * fs)`; raises when `delta_n >= N`; otherwise
forms `S_n[delta_n:] - S_n[:-delta_n]` and returns the mean of its
squares. -/
def compute_msd (S_n : List ℚ) (fs delta_t : ℚ) : Except AnalysisError (Option ℚ) :=
  let delta_n := pyInt (delta_t * fs)
  if (S_n.length : ℤ) ≤ delta_n then Except.error AnalysisError.invalidParameter
  else
    match npSub (pySliceFrom S_n delta_n) (pySliceTo S_n (-delta_n)) with
    | none => Except.error AnalysisError.broadcastError
    | some diff => Except.ok (npMean (diff.map (fun d => d ^ 2)))

/-- `count_zero_crossings(signal)` (stabilogram_analysis.py:158-171):
`((signal[:-1] * signal[1:]) < 0).sum()`.  The body contains no `raise`,
so the translation only produces `Except.ok`. -/
def count_zero_crossings (signal : List ℚ) : Except AnalysisError ℕ :=
  Except.ok
    ((List.zipWith (fun x y => x * y) (pySliceTo signal (-1)) (pySliceFrom signal 1)).countP
      (fun v => decide (v < 0)))

/-- Scan of `scipy.signal.find_peaks`' local-maxima rule
(`_local_maxima_1d`): a sample — or plateau of equal samples — strictly
greater than the sample before it and strictly greater than the first
differing sample after it is one peak; a plateau running to the end of
the signal is not a peak.  `cur` is the value of the current plateau and
`up` records whether the signal strictly ascended into it. -/
def peaksScan (cur : ℚ) (up : Bool) : List ℚ → ℕ
  | [] => 0
  | x :: rest =>
    if x = cur then peaksScan cur up rest
    else if cur < x then peaksScan x true rest
    else (if up then 1 else 0) + peaksScan x false rest

/-- `count_peaks(signal)` (stabilogram_analysis.py:174-188): the number
of peaks found by `scipy.signal.find_peaks` with default arguments.  The
body contains no `raise` for 1-D input, so the translation only produces
`Except.ok`. -/
def count_peaks (signal : List ℚ) : Except AnalysisError ℕ :=
  Except.ok (match signal with
    | [] => 0
    | x :: rest => peaksScan x false rest)

/-- `compute_sway_density(cop_signal, fs, radius)`
(stabilogram_analysis.py:191-212): for each index `t`,
`np.sum(np.abs(cop_signal - cop_signal[t]) <= radius) / N`.  `fs` is
accepted and ignored, as in the source. -/
def compute_sway_density (cop_signal : List ℚ) (fs radius : ℚ) : List ℚ :=
  let N := cop_signal.length
  (List.range N).map (fun t =>
    (((List.range N).countP
        (fun j => decide (|cop_signal.getD j 0 - cop_signal.getD t 0| ≤ radius)) : ℚ)) / N)

/-- `np.diff` of a 1-D array: `l[i+1] - l[i]`. -/
def npDiff (l : List ℝ) : List ℝ :=
  List.zipWith (fun a b => b - a) l l.tail

/-- `np.mean` over the reals; `none` models NaN on an empty array. -/
noncomputable def npMeanR (l : List ℝ) : Option ℝ :=
  if l.length = 0 then none else some (l.sum / l.length)

/-- `compute_rms(cop_x, cop_y)` (stabilogram_analysis.py:53-71):
`np.sqrt(np.mean(cop_x**2))` per axis. -/
noncomputable def compute_rms (cop_x cop_y : List ℝ) : Option ℝ × Option ℝ :=
  ((npMeanR (cop_x.map (fun v => v ^ 2))).map Real.sqrt,
   (npMeanR (cop_y.map (fun v => v ^ 2))).map Real.sqrt)

/-- `compute_total_path_length(cop_x, cop_y)`
(stabilogram_analysis.py:215-233): sum of
`np.sqrt(np.diff(cop_x)**2 + np.diff(cop_y)**2)` (the two diff arrays
have equal length whenever the inputs do, which is the only case the
callers produce; NumPy's elementwise `+` requires it). -/
noncomputable def compute_total_path_length (cop_x cop_y : List ℝ) : ℝ :=
  (List.zipWith (fun dx dy => Real.sqrt (dx ^ 2 + dy ^ 2)) (npDiff cop_x) (npDiff cop_y)).sum

/-- Lines 98-100 of `compute_speed`: the effective Savitzky-Golay window,
`window_length = min(window_length, len(cop_x) // 2 * 2 - 1)` followed by
`if window_length % 2 == 0: window_length += 1`. -/
def effective_window (window_length : ℤ) (n : ℕ) : ℤ :=
  let w := min window_length ((n : ℤ) / 2 * 2 - 1)
  if w % 2 = 0 then w + 1 else w

/-- Gaussian elimination on an augmented matrix `[A | b]` given row by
row; the first argument is fuel (the caller passes the number of rows,
which bounds the recursion depth exactly). -/
def gaussSolveAux : ℕ → List (List ℚ) → Option (List ℚ)
  | _, [] => some []
  | 0, _ :: _ => none
  | fuel + 1, r :: rs =>
    let rows := r :: rs
    match rows.find? (fun row => decide (row.headD 0 ≠ 0)) with
    | none => none
    | some piv =>
      let p0 := piv.headD 0
      let pivRest := piv.tail.map (fun v => v / p0)
      let reduced := (rows.erase piv).map (fun row =>
        List.zipWith (fun v pv => v - row.headD 0 * pv) row.tail pivRest)
      match gaussSolveAux fuel reduced with
      | none => none
      | some xs =>
        some ((pivRest.getLastD 0 -
          (List.zipWith (fun a x => a * x) (pivRest.take (pivRest.length - 1)) xs).sum) :: xs)

/-- Solve the linear system given as an augmented matrix. -/
def gaussSolve (rows : List (List ℚ)) : Option (List ℚ) :=
  gaussSolveAux rows.length rows

/-- Derivative, at abscissa `pos`, of the least-squares polynomial of
degree `≤ p` fitted to the points `(k, ys[k])`, `k = 0, …, len ys - 1`
(computed through the normal equations; the system is nonsingular
whenever `p < len ys`, so the fallback 0 of `gaussSolve` is never used
on the inputs `savgolValues` produces). -/
def polyFitDerivAt (ys : List ℚ) (p : ℕ) (pos : ℚ) : ℚ :=
  let w := ys.length
  let m := p + 1
  let rows := (List.range m).map (fun a =>
    ((List.range m).map (fun b => ((List.range w).map (fun (k : ℕ) => (k : ℚ) ^ (a + b))).sum))
      ++ [((List.range w).map (fun (k : ℕ) => (k : ℚ) ^ a * ys.getD k 0)).sum])
  match gaussSolve rows with
  | some c => ((List.range m).map (fun (j : ℕ) => (j : ℚ) * c.getD j 0 * pos ^ (j - 1))).sum
  | none => 0

/-- The output samples of `scipy.signal.savgol_filter(x, wl, p, deriv=1,
delta=delta, mode="interp")`: interior samples take the derivative of the
least-squares fit over the centred window; the first `wl/2` samples use a
fit to the first `wl` samples evaluated at their own positions, the last
`wl/2` samples a fit to the last `wl` samples — scipy's `interp` edge
policy.  The derivative with respect to the sample index is divided by
`delta` to give a derivative per unit of time. -/
def savgolValues (x : List ℚ) (wl p : ℕ) (delta : ℚ) : List ℚ :=
  let N := x.length
  let halflen := wl / 2
  (List.range N).map (fun i =>
    if i < halflen then
      polyFitDerivAt (x.take wl) p (i : ℚ) / delta
    else if N ≤ i + halflen then
      polyFitDerivAt (x.drop (N - wl)) p ((i : ℚ) - ((N - wl : ℕ) : ℚ)) / delta
    else
      polyFitDerivAt ((x.drop (i - halflen)).take wl) p
        (if wl % 2 = 1 then (halflen : ℚ) else (halflen : ℚ) - 1/2) / delta)

/-- `scipy.signal.savgol_filter(x, window_length, polyorder, deriv=1,
delta, mode="interp")`, modelled by its caller-visible contract (scipy is
external to the repository): it raises unless
`polyorder < window_length ≤ len(x)`, and otherwise returns one smoothed
derivative sample per input sample, as computed by `savgolValues`. -/
def savgol_filter (x : List ℚ) (window_length : ℤ) (polyorder : ℕ) (delta : ℚ) :
    Except AnalysisError (List ℚ) :=
  if window_length ≤ (polyorder : ℤ) then Except.error AnalysisError.polyorderTooLarge
  else if (x.length : ℤ) < window_length then Except.error AnalysisError.windowTooLarge
  else Except.ok (savgolValues x window_length.toNat polyorder delta)

/-- `compute_speed(cop_x, cop_y, fs, window_length, polyorder)`
(stabilogram_analysis.py:74-103): `delta = 1/fs` (a `ZeroDivisionError`
when `fs = 0`), the window clamp of lines 98-100 — computed from
`len(cop_x)` for both axes, as in the source — then one
`savgol_filter(…, deriv=1, delta=delta)` call per axis. -/
def compute_speed (cop_x cop_y : List ℚ) (fs : ℚ) (window_length : ℤ) (polyorder : ℕ) :
    Except AnalysisError (List ℚ × List ℚ) :=
  if fs = 0 then Except.error AnalysisError.zeroDivision
  else
    match savgol_filter cop_x (effective_window window_length cop_x.length)
        polyorder (1 / fs) with
    | Except.error e => Except.error e
    | Except.ok speed_ml =>
      match savgol_filter cop_y (effective_window window_length cop_x.length)
          polyorder (1 / fs) with
      | Except.error e => Except.error e
      | Except.ok speed_ap => Except.ok (speed_ml, speed_ap)

/-- Python `str.replace(c, r)` for a single-character pattern `c`: every
occurrence of the character is replaced by the string `r`.  Strings are
modelled as lists of characters. -/
def pyReplaceChar (c : Char) (r : List Char) (s : List Char) : List Char :=
  s.flatMap (fun ch => if ch = c then r else [ch])

/-- The header standardization of `save_metrics_to_csv`
(stabilogram_analysis.py:362-388):
`key.replace(" ", "_").replace("(", "_").replace(")", "").replace("²", "2").replace("·", "_").replace("³", "3")`. -/
def standardize_key (key : List Char) : List Char :=
  pyReplaceChar '³' ['3']
    (pyReplaceChar '·' ['_']
      (pyReplaceChar '²' ['2']
        (pyReplaceChar ')' []
          (pyReplaceChar '(' ['_']
            (pyReplaceChar ' ' ['_'] key)))))

/-- The simultaneous per-character translation the replacement chain of
`save_metrics_to_csv` amounts to: space, `(` and `·` become `_`, `)` is
dropped, `²` becomes `2`, `³` becomes `3`, anything else is kept. -/
def charMapSpec (ch : Char) : List Char :=
  if ch = ' ' ∨ ch = '(' ∨ ch = '·' then ['_']
  else if ch = ')' then []
  else if ch = '²' then ['2']
  else if ch = '³' then ['3']
  else [ch]

/-- The largest odd integer not exceeding `m` (the clamping target the
spec describes for the kinematics estimator's window). -/
def largestOddLe (m : ℤ) : ℤ :=
  if m % 2 = 1 then m else m - 1

/-- The mean of squared lag-`dn` differences as the spec words it:
mean of `S[i+delta_n] - S[i]` squared over `0 ≤ i < N - delta_n`. -/
def msdClaimMean (S : List ℚ) (dn : ℕ) : ℚ :=
  (((List.range (S.length - dn)).map
    (fun i => (S.getD (i + dn) 0 - S.getD i 0) ^ 2)).sum) / ((S.length - dn : ℕ) : ℚ)

/-- The sway-density value C3 claims: the fraction of all OTHER samples
(sample `t` excluded) whose value lies within `r` of `S[t]`. -/
def spec_sway_fraction (S : List ℚ) (r : ℚ) (t : ℕ) : ℚ :=
  (((List.range S.length).countP
      (fun j => decide (j ≠ t) && decide (|S.getD j 0 - S.getD t 0| ≤ r))) : ℚ) /
    ((S.length - 1 : ℕ) : ℚ)

/-! ## Helper lemmas -/

/-- The replacement chain distributes over list concatenation. -/
theorem standardize_key_append (a b : List Char) :
    standardize_key (a ++ b) = standardize_key a ++ standardize_key b := by
  simp [standardize_key, pyReplaceChar]

/-- On a single character the replacement chain agrees with the
simultaneous translation. -/
theorem standardize_key_single (x : Char) : standardize_key [x] = charMapSpec x := by
  by_cases h1 : x = ' '
  · subst h1; decide
  by_cases h2 : x = '('
  · subst h2; decide
  by_cases h3 : x = ')'
  · subst h3; decide
  by_cases h4 : x = '²'
  · subst h4; decide
  by_cases h5 : x = '·'
  · subst h5; decide
  by_cases h6 : x = '³'
  · subst h6; decide
  simp [standardize_key, pyReplaceChar, charMapSpec, h1, h2, h3, h4, h5, h6]

/-! ## Claims -/

/-- C4 (counterexample): the column name derived from the label
"RMS (cm²)" is "RMS__cm2" — both the space and the opening parenthesis
become an underscore — not the "RMS_cm2" the claim states. -/
theorem C4_counterexample :
    standardize_key "RMS (cm²)".toList = "RMS__cm2".toList ∧
    standardize_key "RMS (cm²)".toList ≠ "RMS_cm2".toList := by
  constructor
  · decide
  · decide

/-- C4 (amended): `save_metrics_to_csv` derives each output column name
from the metric label by the per-character translation `charMapSpec`
(space, `(` and `·` to `_`; `)` dropped; `²` to `2`; `³` to `3`), and
the label "RMS (cm²)" maps to "RMS__cm2". -/
theorem C4_standardize_key :
    (∀ key : List Char, standardize_key key = key.flatMap charMapSpec) ∧
    standardize_key "RMS (cm²)".toList = "RMS__cm2".toList := by
  constructor
  · intro key
    induction key with
    | nil => rfl
    | cons x key ih =>
      rw [show x :: key = [x] ++ key from rfl, standardize_key_append, ih,
        standardize_key_single]
      simp
  · decide

/-- C1 (counterexample): on the spec's scenario series
`[0,1,0,-1,0,1,0,-1]` the zero-crossing count is not 6 — every adjacent
product is 0, and the code counts only strictly negative products. -/
theorem C1_counterexample :
    count_zero_crossings [0, 1, 0, -1, 0, 1, 0, -1] ≠ Except.ok 6 := by
  have h : count_zero_crossings [0, 1, 0, -1, 0, 1, 0, -1] = Except.ok 0 := by
    norm_num [count_zero_crossings, pySliceFrom, pySliceTo,
      show ((1:ℤ)).toNat = 1 by omega, show ((8:ℤ) + -1).toNat = 7 by omega,
      show ((7:ℤ)).toNat = 7 by omega, List.countP_cons, List.countP_nil]
  rw [h]
  simp

/-- C1 (amended): for `cop_x = [0,1,0,-1,0,1,0,-1]`, `cop_y` all zeros:
the zero-crossing count is 0 (all adjacent products are zero),
`rms_ml = sqrt(mean([0,1,0,1,0,1,0,1])) = sqrt(1/2) ≈ 0.707` as claimed,
and the total path length is 7 (seven unit steps between the eight
points), not 8. -/
theorem C1_scenario :
    count_zero_crossings [0, 1, 0, -1, 0, 1, 0, -1] = Except.ok 0 ∧
    compute_rms [0, 1, 0, -1, 0, 1, 0, -1] [0, 0, 0, 0, 0, 0, 0, 0] =
      (some (Real.sqrt (1/2)), some 0) ∧
    ((707/1000 : ℝ) < Real.sqrt (1/2) ∧ Real.sqrt (1/2) < 708/1000) ∧
    compute_total_path_length [0, 1, 0, -1, 0, 1, 0, -1] [0, 0, 0, 0, 0, 0, 0, 0] = 7 := by
  refine ⟨?_, ?_, ⟨?_, ?_⟩, ?_⟩
  · norm_num [count_zero_crossings, pySliceFrom, pySliceTo,
      show ((1:ℤ)).toNat = 1 by omega, show ((8:ℤ) + -1).toNat = 7 by omega,
      show ((7:ℤ)).toNat = 7 by omega, List.countP_cons, List.countP_nil]
  · norm_num [compute_rms, npMeanR, Real.sqrt_zero]
  · exact (Real.lt_sqrt (by norm_num)).mpr (by norm_num)
  · exact (Real.sqrt_lt' (by norm_num)).mpr (by norm_num)
  · norm_num [compute_total_path_length, npDiff, Real.sqrt_one]

/-- The lag-`dn` difference array, expressed by sample index. -/
theorem zipWith_drop_take (S : List ℚ) (dn : ℕ) (h : dn ≤ S.length) :
    List.zipWith (fun x y => x - y) (S.drop dn) (S.take (S.length - dn)) =
      (List.range (S.length - dn)).map (fun i => S.getD (i + dn) 0 - S.getD i 0) := by
  apply List.ext_getElem?
  intro n
  rw [List.getElem?_zipWith]
  by_cases hn : n < S.length - dn
  · have h1 : (S.drop dn)[n]? = some (S.getD (dn + n) 0) := by
      rw [List.getElem?_drop]
      have : dn + n < S.length := by omega
      simp [List.getElem?_eq_getElem this, List.getD_eq_getElem?_getD,
        List.getElem?_eq_getElem]
    have h2 : (S.take (S.length - dn))[n]? = some (S.getD n 0) := by
      rw [List.getElem?_take_of_lt hn]
      have : n < S.length := by omega
      simp [List.getElem?_eq_getElem this, List.getD_eq_getElem?_getD]
    rw [h1, h2]
    have h3 : ((List.range (S.length - dn)).map
        (fun i => S.getD (i + dn) 0 - S.getD i 0))[n]? =
        some (S.getD (n + dn) 0 - S.getD n 0) := by
      simp [List.getElem?_map, List.getElem?_range hn]
    rw [h3]
    simp [Nat.add_comm]
  · have h1 : (S.take (S.length - dn))[n]? = none := by
      rw [List.getElem?_eq_none]
      simp
      omega
    have h2 : ((List.range (S.length - dn)).map
        (fun i => S.getD (i + dn) 0 - S.getD i 0))[n]? = none := by
      rw [List.getElem?_eq_none]
      simp
      omega
    rw [h1, h2]
    rcases (S.drop dn)[n]? with _ | v <;> rfl

/-- C2 (amended): `compute_msd` computes `delta_n = int(delta_t * fs)` —
truncation toward zero, not rounding — raises the documented
`InvalidParameter` error exactly when `delta_n >= N`, and for
`1 ≤ delta_n < N` returns the mean of the squared lag-`delta_n`
differences.  (The remaining case `delta_n = 0` raises a broadcast
error, C10.) -/
theorem C2_msd_truncation (S : List ℚ) (fs delta_t : ℚ) :
    (compute_msd S fs delta_t = Except.error AnalysisError.invalidParameter ↔
      (S.length : ℤ) ≤ pyInt (delta_t * fs)) ∧
    (∀ dn : ℕ, pyInt (delta_t * fs) = (dn : ℤ) → 1 ≤ dn → dn < S.length →
      compute_msd S fs delta_t = Except.ok (some (msdClaimMean S dn))) := by
  constructor
  · by_cases hle : (S.length : ℤ) ≤ pyInt (delta_t * fs)
    · simp [compute_msd, hle]
    · simp only [compute_msd, if_neg hle]
      rcases hnp : npSub (pySliceFrom S (pyInt (delta_t * fs)))
          (pySliceTo S (-pyInt (delta_t * fs))) with _ | diff
      · simp [hle]
      · simp [hle]
  · intro dn hdn h1 hN
    have hle : ¬ ((S.length : ℤ) ≤ pyInt (delta_t * fs)) := by
      rw [hdn]; omega
    have hfrom : pySliceFrom S (pyInt (delta_t * fs)) = S.drop dn := by
      rw [hdn]; simp [pySliceFrom]
    have hto : pySliceTo S (-pyInt (delta_t * fs)) = S.take (S.length - dn) := by
      rw [hdn]
      have hneg : ¬ ((0:ℤ) ≤ -(dn : ℤ)) := by omega
      have htn : (((S.length : ℤ) + -(dn : ℤ))).toNat = S.length - dn := by omega
      simp only [pySliceTo, if_neg hneg, htn]
    have hlen2 : (S.drop dn).length = (S.take (S.length - dn)).length := by
      simp only [List.length_drop, List.length_take]
      omega
    simp only [compute_msd, if_neg hle, hfrom, hto, npSub, if_pos hlen2]
    rw [zipWith_drop_take S dn (by omega)]
    have hne : ¬ (S.length - dn = 0) := by omega
    simp only [npMean, List.map_map, List.length_map, List.length_range, if_neg hne]
    simp [msdClaimMean, Function.comp_def]

/-- C2 (counterexample): with `S = [0,0,0]`, `fs = 1`,
`delta_t = 2.7`, the claim's `delta_n = round(2.7) = 3 ≥ N = 3` predicts
an `InvalidParameter` failure, but the code truncates (`int(2.7) = 2`)
and returns a value. -/
theorem C2_counterexample :
    compute_msd [0, 0, 0] 1 (27/10) = Except.ok (some 0) ∧
    round ((27:ℚ)/10 * 1) = 3 ∧ pyInt ((27:ℚ)/10 * 1) = 2 := by
  refine ⟨?_, by norm_num [round_eq], by norm_num [pyInt]⟩
  have hd : pyInt ((27:ℚ)/10 * 1) = 2 := by norm_num [pyInt]
  simp only [compute_msd, hd]
  norm_num [pySliceFrom, pySliceTo, npSub, npMean,
    show ((2:ℤ)).toNat = 2 by omega, show ((3:ℤ) + -2).toNat = 1 by omega,
    show (((3:ℕ):ℤ) + -2).toNat = 1 by omega]

/-- C2 (witness): at `S = [0,0,0,0]`, `fs = 1`, `delta_t = 2` the lag is
`delta_n = 2` and the MSD evaluates to the claimed mean. -/
theorem C2_witness :
    pyInt ((2:ℚ) * 1) = (2:ℕ) ∧ 1 ≤ 2 ∧ 2 < ([0, 0, 0, 0] : List ℚ).length ∧
    compute_msd [0, 0, 0, 0] 1 2 = Except.ok (some (msdClaimMean [0, 0, 0, 0] 2)) :=
  ⟨by norm_num [pyInt], by norm_num, by norm_num,
    (C2_msd_truncation [0, 0, 0, 0] 1 2).2 2 (by norm_num [pyInt]) (by norm_num)
      (by norm_num)⟩

/-- C10 (amended): for a series of length `N ≥ 2` and a positive lag
shorter than one sample (`0 < delta_t * fs < 1`), `compute_msd` computes
`delta_n = 0`, passes its `delta_n >= N` check, and then fails with a
NumPy broadcast error — not the documented `InvalidParameter` — because
the zero-lag slice `S[:-0]` is empty.  (For `N = 1` broadcasting
degenerates and NumPy returns NaN instead of raising, which is why the
claim's `N ≥ 1` is amended to `N ≥ 2`.) -/
theorem C10_zero_lag (S : List ℚ) (fs delta_t : ℚ) (h2 : 2 ≤ S.length)
    (hpos : 0 < delta_t * fs) (hlt : delta_t * fs < 1) :
    pyInt (delta_t * fs) = 0 ∧
    compute_msd S fs delta_t = Except.error AnalysisError.broadcastError := by
  have hd : pyInt (delta_t * fs) = 0 := by
    rw [pyInt, if_pos hpos.le]
    rw [Int.floor_eq_zero_iff]
    constructor <;> simp [hpos.le, hlt]
  refine ⟨hd, ?_⟩
  have hle : ¬ ((S.length : ℤ) ≤ pyInt (delta_t * fs)) := by rw [hd]; omega
  have hfrom : pySliceFrom S (pyInt (delta_t * fs)) = S := by
    rw [hd]; simp [pySliceFrom]
  have hto : pySliceTo S (-pyInt (delta_t * fs)) = [] := by
    rw [hd]; simp [pySliceTo]
  simp only [compute_msd, if_neg hle, hfrom, hto]
  have ha : ¬ (S.length = ([] : List ℚ).length) := by
    simp only [List.length_nil]
    omega
  have hb : ¬ (S.length = 1) := by omega
  have hc : ¬ (([] : List ℚ).length = 1) := by simp
  simp only [npSub, if_neg ha, if_neg hb, if_neg hc]

/-- C10 (counterexample): at the length-1 series `S = [5]` with
`fs = 1`, `delta_t = 1/2` (so `N ≥ 1` and `0 < delta_t * fs < 1`), the
code does not fail: NumPy broadcasts the length-1 array against the
empty slice and `np.mean` of the empty difference returns NaN. -/
theorem C10_counterexample : compute_msd [5] 1 (1/2) = Except.ok none := by
  norm_num [compute_msd, pyInt, pySliceFrom, pySliceTo, npSub, npMean]

/-- C10 (witness): the amended statement instantiated at
`S = [1, 2]`, `fs = 1`, `delta_t = 1/2`. -/
theorem C10_witness :
    2 ≤ ([1, 2] : List ℚ).length ∧ (0:ℚ) < 1/2 * 1 ∧ (1:ℚ)/2 * 1 < 1 ∧
    (pyInt ((1:ℚ)/2 * 1) = 0 ∧
      compute_msd [1, 2] 1 (1/2) = Except.error AnalysisError.broadcastError) :=
  ⟨by norm_num, by norm_num, by norm_num,
    C10_zero_lag [1, 2] 1 (1/2) (by norm_num) (by norm_num) (by norm_num)⟩

/-- C6 (amended): neither event counter ever fails, for any input
length: `count_zero_crossings` returns 0 for `N < 2` (there is no
adjacent pair) and `count_peaks` returns 0 for `N < 3` (no sample has
two neighbours); both always return `Except.ok`. -/
theorem C6_event_counters_total (signal : List ℚ) :
    (count_zero_crossings signal).isOk = true ∧
    (count_peaks signal).isOk = true ∧
    (signal.length < 2 → count_zero_crossings signal = Except.ok 0) ∧
    (signal.length < 3 → count_peaks signal = Except.ok 0) := by
  refine ⟨rfl, rfl, ?_, ?_⟩
  · intro h
    match signal, h with
    | [], _ => rfl
    | [a], _ =>
      simp [count_zero_crossings, pySliceTo, pySliceFrom,
        show ((1:ℤ) + -1).toNat = 0 by omega]
  · intro h
    match signal, h with
    | [], _ => rfl
    | [a], _ => rfl
    | [a, b], _ =>
      simp only [count_peaks, peaksScan]
      split
      · rfl
      · split <;> simp [peaksScan]

/-- C6 (counterexample): on the empty series (length `0 < 2`) the
zero-crossing counter does not fail with `InvalidInput` — it returns the
value 0. -/
theorem C6_counterexample : count_zero_crossings ([] : List ℚ) = Except.ok 0 := rfl

/-- C6 (witness): the amended statement instantiated at the length-1
series `[3]` and the length-2 series for the peak counter. -/
theorem C6_witness :
    (([3] : List ℚ).length < 2 ∧ count_zero_crossings [3] = Except.ok 0) ∧
    (([3, 4] : List ℚ).length < 3 ∧ count_peaks [3, 4] = Except.ok 0) :=
  ⟨⟨by norm_num, (C6_event_counters_total [3]).2.2.1 (by norm_num)⟩,
   ⟨by norm_num, (C6_event_counters_total [3, 4]).2.2.2 (by norm_num)⟩⟩

/-- The sway-density sample at a valid index `t`. -/
theorem sway_density_getD (S : List ℚ) (fs r : ℚ) (t : ℕ) (ht : t < S.length) :
    (compute_sway_density S fs r).getD t 0 =
      ((List.range S.length).countP
        (fun j => decide (|S.getD j 0 - S.getD t 0| ≤ r)) : ℚ) / (S.length : ℚ) := by
  simp only [compute_sway_density, List.getD_eq_getElem?_getD, List.getElem?_map,
    List.getElem?_range ht]
  rfl

/-- Splitting the proximity count at a distinguished index where the
predicate holds. -/
theorem countP_range_split (N t : ℕ) (ht : t < N) (p : ℕ → Bool) (hp : p t = true) :
    (List.range N).countP p =
      1 + (List.range N).countP (fun j => decide (j ≠ t) && p j) := by
  induction N with
  | zero => omega
  | succ n ih =>
    rw [List.range_succ, List.countP_append, List.countP_append]
    by_cases hc : t = n
    · subst hc
      have hs : (List.range t).countP p =
          (List.range t).countP (fun j => decide (j ≠ t) && p j) := by
        apply List.countP_congr
        intro x hx
        have hxt : x ≠ t := by
          have := List.mem_range.mp hx
          omega
        simp [hxt]
      rw [hs]
      simp [hp]
      omega
    · have htn : t < n := by omega
      rw [ih htn]
      have hlast : (List.countP p [n] : ℕ) =
          List.countP (fun j => decide (j ≠ t) && p j) [n] := by
        simp only [List.countP_cons, List.countP_nil]
        have hnt : (decide (n ≠ t)) = true := by
          simp only [decide_eq_true_eq]
          omega
        simp [hnt]
      omega

/-- C3 (counterexample): on `S = [0, 10]` with radius `0.3`, the first
sway-density sample is `1/2` — the code counts sample `t` itself and
divides by `N` — while the fraction of the other samples within the
radius is 0. -/
theorem C3_counterexample :
    compute_sway_density [0, 10] 1 (3/10) = [1/2, 1/2] ∧
    spec_sway_fraction [0, 10] (3/10) 0 = 0 ∧ ((1:ℚ)/2) ≠ 0 := by
  refine ⟨?_, ?_, by norm_num⟩
  · norm_num [compute_sway_density, List.range_succ, List.countP_cons, List.countP_nil]
  · norm_num [spec_sway_fraction, List.range_succ, List.countP_cons, List.countP_nil]

/-- C3 (amended): each sway-density sample `t` equals
`(1 + k) / N`, where `k` is the number of OTHER samples within distance
`r` of `S[t]` — the code includes sample `t` itself in the count and
divides by `N`, not by the number of other samples. -/
theorem C3_sway_density_value (S : List ℚ) (fs r : ℚ) (t : ℕ) (hr : 0 ≤ r)
    (ht : t < S.length) :
    (compute_sway_density S fs r).getD t 0 =
      (1 + ((List.range S.length).countP
        (fun j => decide (j ≠ t) && decide (|S.getD j 0 - S.getD t 0| ≤ r))) : ℚ) /
        (S.length : ℚ) := by
  rw [sway_density_getD S fs r t ht]
  rw [countP_range_split S.length t ht _ (by simp [hr])]
  push_cast
  ring

/-- C3 (witness): the amended statement instantiated at `S = [0, 10]`,
`r = 0.3`, `t = 0`: the sample is `(1 + 0) / 2 = 1/2`. -/
theorem C3_witness :
    (0:ℚ) ≤ 3/10 ∧ 0 < ([0, 10] : List ℚ).length ∧
    (compute_sway_density [0, 10] 1 (3/10)).getD 0 0 =
      (1 + ((List.range ([0, 10] : List ℚ).length).countP
        (fun j => decide (j ≠ 0) &&
          decide (|([0, 10] : List ℚ).getD j 0 - ([0, 10] : List ℚ).getD 0 0| ≤ 3/10))) : ℚ) /
        (([0, 10] : List ℚ).length : ℚ) :=
  ⟨by norm_num, by norm_num,
    C3_sway_density_value [0, 10] 1 (3/10) 0 (by norm_num) (by norm_num)⟩

/-- C7: for a fixed series, each sway-density sample is monotone
non-decreasing in the radius, and every sample lies in `[0, 1]`. -/
theorem C7_sway_density_monotone (S : List ℚ) (fs r₁ r₂ : ℚ) (t : ℕ)
    (hr : r₁ ≤ r₂) (ht : t < S.length) :
    (compute_sway_density S fs r₁).getD t 0 ≤ (compute_sway_density S fs r₂).getD t 0 ∧
    0 ≤ (compute_sway_density S fs r₁).getD t 0 ∧
    (compute_sway_density S fs r₁).getD t 0 ≤ 1 := by
  have hN : (0:ℚ) < (S.length : ℚ) := by
    have : 0 < S.length := by omega
    exact_mod_cast this
  rw [sway_density_getD S fs r₁ t ht, sway_density_getD S fs r₂ t ht]
  refine ⟨?_, ?_, ?_⟩
  · apply (div_le_div_iff_of_pos_right hN).mpr
    apply Nat.cast_le.mpr
    apply List.countP_mono_left
    intro j hj hpj
    simp only [decide_eq_true_eq] at hpj ⊢
    linarith
  · positivity
  · apply (div_le_one hN).mpr
    have hcount : (List.range S.length).countP
        (fun j => decide (|S.getD j 0 - S.getD t 0| ≤ r₁)) ≤ S.length :=
      le_trans (List.countP_le_length _) (le_of_eq (List.length_range S.length))
    exact_mod_cast hcount

/-- C7 (witness): instantiated at `S = [0, 1]`, radii `0 ≤ 1`, `t = 0`. -/
theorem C7_witness :
    ((0:ℚ) ≤ 1 ∧ (0:ℕ) < ([0, 1] : List ℚ).length) ∧
    ((compute_sway_density [0, 1] 1 0).getD 0 0 ≤
        (compute_sway_density [0, 1] 1 1).getD 0 0 ∧
      0 ≤ (compute_sway_density [0, 1] 1 0).getD 0 0 ∧
      (compute_sway_density [0, 1] 1 0).getD 0 0 ≤ 1) :=
  ⟨⟨by norm_num, by norm_num⟩,
    C7_sway_density_monotone [0, 1] 1 0 1 0 (by norm_num) (by norm_num)⟩

/-- C5: the window edge policy of `compute_speed`: an even requested
window within support is incremented to the next odd value; a window
exceeding the support is clamped to the largest odd value `≤ N - 1`
(`largestOddLe (N-1)`, which the last three conjuncts characterise); in
particular `window_length = 100` on a series of length 10 gives
effective window 9, and that call does not raise. -/
theorem C5_window_policy :
    (∀ (n : ℕ) (wl : ℤ), 2 ≤ n →
      ((wl % 2 = 0 → wl ≤ largestOddLe ((n:ℤ) - 1) → effective_window wl n = wl + 1) ∧
       ((n:ℤ) - 1 < wl → effective_window wl n = largestOddLe ((n:ℤ) - 1)) ∧
       (largestOddLe ((n:ℤ) - 1) % 2 = 1 ∧ largestOddLe ((n:ℤ) - 1) ≤ (n:ℤ) - 1 ∧
        ∀ o : ℤ, o % 2 = 1 → o ≤ (n:ℤ) - 1 → o ≤ largestOddLe ((n:ℤ) - 1)))) ∧
    effective_window 100 10 = 9 ∧
    (compute_speed (List.replicate 10 0) (List.replicate 10 0) 1 100 3).isOk = true := by
  refine ⟨?_, by decide, by decide⟩
  intro n wl h2
  have hc : largestOddLe ((n:ℤ) - 1) = (n:ℤ)/2*2 - 1 := by
    unfold largestOddLe
    split_ifs <;> omega
  refine ⟨?_, ?_, ?_, ?_, ?_⟩
  · intro heven hle
    rw [hc] at hle
    simp only [effective_window]
    split_ifs <;> omega
  · intro hgt
    rw [hc]
    simp only [effective_window]
    split_ifs <;> omega
  · rw [hc]; omega
  · rw [hc]; omega
  · intro o ho hle2
    rw [hc]; omega

/-- C5 (witness): the even-window rule instantiated at `n = 10`,
`wl = 4`: the effective window is 5. -/
theorem C5_witness :
    (4:ℤ) % 2 = 0 ∧ (4:ℤ) ≤ largestOddLe ((10:ℤ) - 1) ∧
    effective_window 4 10 = 4 + 1 :=
  ⟨by decide, by decide,
    (C5_window_policy.1 10 4 (by norm_num)).1 (by decide) (by decide)⟩

/-- A nonempty list's `getLastD` does not depend on the default. -/
theorem getLastD_ne_nil (l : List ℝ) (h : l ≠ []) (d₁ d₂ : ℝ) :
    l.getLastD d₁ = l.getLastD d₂ := by
  cases l with
  | nil => exact absurd rfl h
  | cons a t =>
    rcases hq : (a :: t).getLast? with _ | v
    · simp at hq
    · simp [List.getLastD_eq_getLast?, hq]

/-- `getLastD` of a reversed list is `headD`. -/
theorem getLastD_reverse (l : List ℝ) (d : ℝ) : l.reverse.getLastD d = l.headD d := by
  cases l with
  | nil => rfl
  | cons a t =>
    rw [List.reverse_cons, List.getLastD_concat]
    rfl

/-- The diff array has one element fewer than the series. -/
theorem npDiff_length (l : List ℝ) : (npDiff l).length = l.length - 1 := by
  simp only [npDiff, List.length_zipWith, List.length_tail]
  omega

/-- `np.diff` over a concatenation: the diffs of each part plus the
junction step. -/
theorem npDiff_append : ∀ x xb : List ℝ, x ≠ [] → xb ≠ [] →
    npDiff (x ++ xb) = npDiff x ++ (xb.headD 0 - x.getLastD 0) :: npDiff xb := by
  intro x
  induction x with
  | nil => intro xb hx hb; exact absurd rfl hx
  | cons a t ih =>
    intro xb hx hb
    cases t with
    | nil =>
      cases xb with
      | nil => exact absurd rfl hb
      | cons c u => rfl
    | cons c t' =>
      have ht : (c :: t') ≠ [] := by simp
      have hstep : npDiff (a :: ((c :: t') ++ xb)) =
          (c - a) :: npDiff ((c :: t') ++ xb) := rfl
      rw [show (a :: (c :: t')) ++ xb = a :: ((c :: t') ++ xb) from rfl, hstep,
        ih xb ht hb]
      have hstep2 : npDiff (a :: c :: t') = (c - a) :: npDiff (c :: t') := rfl
      rw [hstep2]
      simp only [List.cons_append, List.getLastD_cons]

/-- `np.diff` of a reversed series: the reversed, negated diffs. -/
theorem npDiff_reverse (x : List ℝ) :
    npDiff x.reverse = ((npDiff x).map (fun v => -v)).reverse := by
  induction x with
  | nil => rfl
  | cons a t ih =>
    cases t with
    | nil => rfl
    | cons c t' =>
      have hne : (c :: t').reverse ≠ [] := by simp
      rw [List.reverse_cons, npDiff_append (c :: t').reverse [a] hne (by simp), ih]
      have hstep : npDiff (a :: c :: t') = (c - a) :: npDiff (c :: t') := rfl
      rw [hstep]
      simp [getLastD_reverse, neg_sub, npDiff]

/-- `zipWith` commutes with reversing both (equal-length) lists. -/
theorem zipWith_reverse_reverse (f : ℝ → ℝ → ℝ) (l₁ l₂ : List ℝ)
    (h : l₁.length = l₂.length) :
    List.zipWith f l₁.reverse l₂.reverse = (List.zipWith f l₁ l₂).reverse := by
  induction l₁ generalizing l₂ with
  | nil =>
    cases l₂ with
    | nil => simp
    | cons b u => simp at h
  | cons a t ih =>
    cases l₂ with
    | nil => simp at h
    | cons b u =>
      have hl : t.length = u.length := by simpa using h
      simp only [List.reverse_cons]
      rw [List.zipWith_append _ _ _ _ _ (by simp [hl])]
      rw [ih u hl]
      simp

/-- C8: the total path length is invariant under reversing both series,
and additive over trajectory concatenation up to the junction
distance. -/
theorem C8_path_length_props :
    (∀ x y : List ℝ, x.length = y.length → 2 ≤ x.length →
      compute_total_path_length x.reverse y.reverse = compute_total_path_length x y) ∧
    (∀ xa ya xb yb : List ℝ, xa.length = ya.length → xb.length = yb.length →
      xa ≠ [] → xb ≠ [] →
      compute_total_path_length (xa ++ xb) (ya ++ yb) =
        compute_total_path_length xa ya + compute_total_path_length xb yb +
          Real.sqrt ((xb.headD 0 - xa.getLastD 0) ^ 2 +
            (yb.headD 0 - ya.getLastD 0) ^ 2)) := by
  constructor
  · intro x y hlen h2
    unfold compute_total_path_length
    rw [npDiff_reverse x, npDiff_reverse y]
    rw [zipWith_reverse_reverse _ _ _
      (by simp only [List.length_map, npDiff_length, hlen])]
    rw [List.sum_reverse, List.zipWith_map]
    have hf : (fun a b : ℝ => Real.sqrt ((-a) ^ 2 + (-b) ^ 2)) =
        (fun dx dy : ℝ => Real.sqrt (dx ^ 2 + dy ^ 2)) := by
      funext a b
      rw [neg_sq, neg_sq]
    rw [hf]
  · intro xa ya xb yb hA hB hxa hxb
    have hya : ya ≠ [] := by
      intro hh
      rw [hh] at hA
      simp only [List.length_nil] at hA
      exact hxa (List.length_eq_zero.mp hA)
    have hyb : yb ≠ [] := by
      intro hh
      rw [hh] at hB
      simp only [List.length_nil] at hB
      exact hxb (List.length_eq_zero.mp hB)
    unfold compute_total_path_length
    rw [npDiff_append xa xb hxa hxb, npDiff_append ya yb hya hyb]
    rw [List.zipWith_append _ _ _ _ _ (by simp only [npDiff_length, hA])]
    simp only [List.zipWith_cons_cons, List.sum_append, List.sum_cons]
    ring

/-- C8 (witness): both parts instantiated at the concrete trajectories
`A = ([0,1],[0,2])`, `B = ([5],[6])`. -/
theorem C8_witness :
    (([0, 1] : List ℝ).length = ([0, 2] : List ℝ).length ∧
      2 ≤ ([0, 1] : List ℝ).length ∧
      compute_total_path_length ([0, 1] : List ℝ).reverse ([0, 2] : List ℝ).reverse =
        compute_total_path_length [0, 1] [0, 2]) ∧
    (([5] : List ℝ) ≠ [] ∧
      compute_total_path_length ([0, 1] ++ [5]) ([0, 2] ++ [6]) =
        compute_total_path_length [0, 1] [0, 2] + compute_total_path_length [5] [6] +
          Real.sqrt ((([5] : List ℝ).headD 0 - ([0, 1] : List ℝ).getLastD 0) ^ 2 +
            (([6] : List ℝ).headD 0 - ([0, 2] : List ℝ).getLastD 0) ^ 2)) :=
  ⟨⟨by simp, by simp,
      C8_path_length_props.1 [0, 1] [0, 2] (by simp) (by simp)⟩,
   ⟨by simp,
      C8_path_length_props.2 [0, 1] [0, 2] [5] [6] (by simp) (by simp) (by simp) (by simp)⟩⟩

/-- A successful `savgol_filter` call returns one sample per input
sample. -/
theorem savgol_filter_ok_length (x : List ℚ) (wl : ℤ) (po : ℕ) (d : ℚ)
    (v : List ℚ) (h : savgol_filter x wl po d = Except.ok v) :
    v.length = x.length := by
  unfold savgol_filter at h
  split_ifs at h
  all_goals
    rw [← Except.ok.inj h]
    simp [savgolValues]

/-- C9: every successful `compute_speed` call returns velocity series of
exactly the input lengths, and `compute_sway_density` always returns a
series of the input length — no implicit trimming. -/
theorem C9_length_preservation :
    (∀ (x y : List ℚ) (fs : ℚ) (wl : ℤ) (po : ℕ) (out : List ℚ × List ℚ),
      compute_speed x y fs wl po = Except.ok out →
      out.1.length = x.length ∧ out.2.length = y.length) ∧
    (∀ (S : List ℚ) (fs r : ℚ), (compute_sway_density S fs r).length = S.length) := by
  constructor
  · intro x y fs wl po out h
    unfold compute_speed at h
    split_ifs at h
    rcases h1 : savgol_filter x (effective_window wl x.length) po (1 / fs) with e | sml
    · rw [h1] at h
      simp at h
    · rw [h1] at h
      rcases h2 : savgol_filter y (effective_window wl x.length) po (1 / fs) with e | sap
      · rw [h2] at h
        simp at h
      · rw [h2] at h
        rw [← Except.ok.inj h]
        exact ⟨savgol_filter_ok_length _ _ _ _ _ h1, savgol_filter_ok_length _ _ _ _ _ h2⟩
  · intro S fs r
    simp [compute_sway_density]

/-- C9 (witness): a successful concrete call (`N = 4`, window 3,
polyorder 1) whose outputs have the input length, and a concrete
sway-density call of length 1. -/
theorem C9_witness :
    (∃ out : List ℚ × List ℚ,
      compute_speed [0, 0, 0, 0] [0, 0, 0, 0] 1 3 1 = Except.ok out ∧
      out.1.length = 4 ∧ out.2.length = 4) ∧
    (compute_sway_density [0] 1 (3/10)).length = 1 := by
  constructor
  · have hok : (compute_speed [0, 0, 0, 0] [0, 0, 0, 0] 1 3 1).isOk = true := by decide
    rcases hc : compute_speed [0, 0, 0, 0] [0, 0, 0, 0] 1 3 1 with e | out
    · rw [hc] at hok
      simp [Except.isOk, Except.toBool] at hok
    · exact ⟨out, rfl, by
        simpa using C9_length_preservation.1 [0, 0, 0, 0] [0, 0, 0, 0] 1 3 1 out hc⟩
  · simpa using C9_length_preservation.2 [0] 1 (3/10)
